import Mathlib

/-!
Shallow embedding of the MASP shielded-sync utilities of
`crates/sdk/src/masp/utils.rs` (fetch queue, extraction logic, task
manager) together with the fragments of `crates/core/src/ibc.rs` it calls.
External collaborators (the RPC client, borsh decoders of the `namada_tx`
and `namada_core::token` crates, the flume/tokio channels) are modelled at
their interface boundary; every definition mirrors the control flow of its
source function.
-/

set_option linter.unusedVariables false

/-- Storage keys touched by a shielded action (`namada_core::storage::Key`);
the extraction logic only moves whole sets of them around, so the key itself
is opaque text. -/
abbrev Key := String

/-- An opaque MASP `Transaction` payload (the cryptographic content is out of
scope; extraction only locates and returns it). -/
abbrev MaspTx := Nat

/-- A section hash (`namada_core::hash::Hash`), opaque. -/
abbrev Hash := Nat

/-- Result of running a fallible Rust function: `ok` for `Ok`, `err` for a
returned `Error::Other(msg)`, and `panic` for an aborted call (an `unwrap`
on `None`/`Err`). -/
inductive Outcome (α : Type) where
  | ok (a : α)
  | err (msg : String)
  | panic
deriving Repr, DecidableEq

/-- `opt.ok_or_else(|| Error::Other(msg))?` -/
def Outcome.okOr {α : Type} : Option α → String → Outcome α
  | some a, _ => .ok a
  | none, msg => .err msg

/-- `namada_core::storage::IndexedTx`: a (block height, in-block index) pair
uniquely locating a transaction; ordered lexicographically. -/
structure IndexedTx where
  height : Nat
  index : Nat
deriving Repr, DecidableEq

/-- The strict lexicographic order on `IndexedTx` (the `Ord` derive of the
source type: height first, then in-block index). -/
def IndexedTx.keyLt (a b : IndexedTx) : Prop :=
  a.height < b.height ∨ (a.height = b.height ∧ a.index < b.index)

instance (a b : IndexedTx) : Decidable (a.keyLt b) :=
  inferInstanceAs (Decidable (a.height < b.height ∨ (a.height = b.height ∧ a.index < b.index)))

/-- `namada_core::ibc::EVENT_TYPE_PACKET` -/
def EVENT_TYPE_PACKET : String := "fungible_token_packet"

/-- `IbcShieldedTransfer` (`crates/core/src/ibc.rs`): the `transfer` field is
never read by the sync logic, so only the MASP transaction is kept. -/
structure IbcShieldedTransfer where
  masp_tx : MaspTx
deriving Repr, DecidableEq

/-- `namada_ibc::event::IbcEvent` as consumed by `get_shielded_transfer`
(`crates/core/src/ibc.rs`): the generic attr codec of
`event/extend.rs` is modelled by the outcome of each of the three attr
reads that function performs. `shielded_transfer_attr` encodes the result of
`ShieldedTransfer::read_opt_from_event_attributes`: `none` for `Err(_)`,
`some o` for `Ok(o)`. -/
structure IbcEvent where
  event_type : String
  success_attr : Bool
  shielded_receiver_attr : Bool
  shielded_transfer_attr : Option (Option IbcShieldedTransfer)
deriving Repr, DecidableEq

/-- `get_shielded_transfer` (`crates/core/src/ibc.rs` lines 181-199); the
outer `Option` encodes the `Result` as in `IbcEvent.shielded_transfer_attr`. -/
def get_shielded_transfer (event : IbcEvent) : Option (Option IbcShieldedTransfer) :=
  if event.event_type ≠ EVENT_TYPE_PACKET then
    some none
  else if !event.success_attr || !event.shielded_receiver_attr then
    some none
  else
    event.shielded_transfer_attr

/-- `namada_tx::data::TxResult` restricted to the two fields the sync logic
reads (`changed_keys`, `ibc_events`); `changed_keys` is a `BTreeSet<Key>`,
kept as a list. Modelled from the spec: the `namada_tx` crate is not under
`src/`. -/
structure TxResult where
  changed_keys : List Key
  ibc_events : List IbcEvent
deriving Repr, DecidableEq

/-- The value of an ABCI event attr: a plain string, or a string that is
the serialization of a `TxResult`. A given attr value parses as at most
one of `u32` / `TxResult`, which the two constructors capture. -/
inductive AttrVal where
  | str (s : String)
  | txResult (r : TxResult)
deriving Repr, DecidableEq

/-- `TxResult::from_str` on an attr value: succeeds exactly on values
that are serialized `TxResult`s. -/
def TxResult.from_str : AttrVal → Option TxResult
  | .txResult r => some r
  | .str _ => none

/-- Digit-folding core of `u32::from_str`. -/
def decValue : List Char → Nat → Option Nat
  | [], acc => some acc
  | c :: cs, acc =>
    if c.isDigit then decValue cs (acc * 10 + (c.toNat - 48)) else none

/-- `u32::from_str` on a plain string: an optional leading `+`, then at least
one decimal digit, with the value below `2 ^ 32`. -/
def u32_from_str_raw (s : String) : Option Nat :=
  let cs :=
    match s.data with
    | '+' :: rest => rest
    | l => l
  match cs with
  | [] => none
  | _ =>
    match decValue cs 0 with
    | some v => if v < 4294967296 then some v else none
    | none => none

/-- `u32::from_str` applied to an attr value. -/
def u32_from_str : AttrVal → Option Nat
  | .str s => u32_from_str_raw s
  | .txResult _ => none

/-- One key-value attr of a tendermint ABCI event. -/
structure EventAttribute where
  key : String
  value : AttrVal
deriving Repr, DecidableEq

/-- `crate::tendermint::abci::Event` as consumed by the sync logic: only its
attr list is read. -/
structure AbciEvent where
  attributes : List EventAttribute
deriving Repr, DecidableEq

/-- `namada_core::token::Transfer` restricted to the single field the
extraction logic reads: the optional shielded-section hash. Modelled from
the spec: the token module is not under `src/`. -/
structure Transfer where
  shielded : Option Hash
deriving Repr, DecidableEq

/-- `namada_core::ibc::MsgShieldedTransfer` (`crates/core/src/ibc.rs` lines
68-75): the inner IBC `message` is never read by extraction. -/
structure MsgShieldedTransfer where
  shielded_transfer : IbcShieldedTransfer
deriving Repr, DecidableEq

/-- `namada_ibc::IbcMessage` restricted to the three cases
`extract_payload_from_shielded_action` dispatches on: a direct shielded
transfer, an envelope (whose payload is never read), and every other
message kind. -/
inductive IbcMessage where
  | ShieldedTransfer (msg : MsgShieldedTransfer)
  | Envelope
  | Other
deriving Repr, DecidableEq

/-- The data section bytes of a transaction, classified by what they decode
as: a borsh `Transfer`, an IBC message, or neither. A byte string decodes as
at most one of the two, which the constructors capture. -/
inductive TxData where
  | transfer (t : Transfer)
  | ibc (m : IbcMessage)
  | raw_bytes
deriving Repr, DecidableEq

/-- `Transfer::try_from_slice` on a data section. -/
def Transfer.try_from_slice : TxData → Option Transfer
  | .transfer t => some t
  | _ => none

/-- `namada_ibc::decode_message` on a data section; the error payload is the
decoder's message, propagated verbatim by the caller. -/
def decode_message : TxData → Except String IbcMessage
  | .ibc m => .ok m
  | _ => .error "unknown IBC message"

/-- `namada_tx::data::WrapperTx` restricted to the single field extraction
reads. Modelled from the spec: the `namada_tx` crate is not under `src/`;
per the spec a wrapper may or may not carry a fee-unshielding section
reference, hence the `Option`. -/
structure WrapperTxHeader where
  unshield_section_hash : Option Hash
deriving Repr, DecidableEq

/-- One section of a transaction: either a MASP section or any other kind. -/
inductive TxSection where
  | masp (tx : MaspTx)
  | other_section
deriving Repr, DecidableEq

/-- `Section::masp_tx` -/
def TxSection.masp_tx : TxSection → Option MaspTx
  | .masp tx => some tx
  | .other_section => none

/-- `namada_tx::Tx` at the interface extraction uses: `wrapper` is the result
of `tx.header().wrapper()`, `data` the result of `tx.data()`, and
`sections` backs `tx.get_section(hash)`. Modelled from the spec: the
`namada_tx` crate is not under `src/`. -/
structure Tx where
  wrapper : Option WrapperTxHeader
  data : Option TxData
  sections : List (Hash × TxSection)
deriving Repr, DecidableEq

/-- `Tx::get_section`: the section whose hash matches, if any. -/
def Tx.get_section (tx : Tx) (h : Hash) : Option TxSection :=
  tx.sections.lookup h

/-- The RPC collaborator: `client.block_results(height)` returns either a
transport error or the block's optional `end_block_events`. -/
abbrev Client := Nat → Except String (Option (List AbciEvent))

/-- The closure of the `find_map` in `get_indexed_masp_events_at_height`
applied to one event: the first `is_valid_masp_tx` attr, if any, has
its value parsed with `u32::from_str(..).unwrap()` — an unparseable value
aborts the call. -/
def masp_event_index (e : AbciEvent) : Outcome (Option Nat) :=
  match e.attributes.find? (fun attr => attr.key == "is_valid_masp_tx") with
  | none => .ok none
  | some attr =>
    match u32_from_str attr.value with
    | none => .panic
    | some n => .ok (some n)

/-- The `filter_map` of `get_indexed_masp_events_at_height`: keep, in order,
the events marked with an index at or above `first_idx_to_query`. -/
def filter_masp_events (first_idx_to_query : Nat) : List AbciEvent → Outcome (List (Nat × AbciEvent))
  | [] => .ok []
  | e :: es =>
    match masp_event_index e with
    | .panic => .panic
    | .err m => .err m
    | .ok none => filter_masp_events first_idx_to_query es
    | .ok (some idx) =>
      if first_idx_to_query ≤ idx then
        match filter_masp_events first_idx_to_query es with
        | .ok rest => .ok ((idx, e) :: rest)
        | .err m => .err m
        | .panic => .panic
      else
        filter_masp_events first_idx_to_query es

/-- `get_indexed_masp_events_at_height` (`utils.rs` lines 133-173). -/
def get_indexed_masp_events_at_height (client : Client) (height : Nat)
    (first_idx_to_query : Option Nat) : Outcome (Option (List (Nat × AbciEvent))) :=
  let first_idx := first_idx_to_query.getD 0
  match client height with
  | .error e => .err e
  | .ok none => .ok none
  | .ok (some events) =>
    match filter_masp_events first_idx events with
    | .ok l => .ok (some l)
    | .err m => .err m
    | .panic => .panic

/-- Whether an event's first `is_valid_masp_tx` attr exists but fails to
parse as a `u32` — exactly the condition on which `masp_event_index`
aborts. -/
def bad_masp_attr (e : AbciEvent) : Bool :=
  match e.attributes.find? (fun attr => attr.key == "is_valid_masp_tx") with
  | some attr => (u32_from_str attr.value).isNone
  | none => false

/-- `ExtractShieldedActionArg` (`utils.rs` lines 175-178). -/
inductive ExtractShieldedActionArg where
  | Event (e : AbciEvent)
  | Request (client : Client) (height : Nat) (index : Option Nat)

/-- The changed-keys block shared by the two direct paths of
`extract_masp_tx` (`utils.rs` lines 215-238 and 274-299): with an event, the
first `inner_tx` attr is required and parsed; without one the empty set
is used. -/
def extract_masp_tx_changed_keys (action_arg : ExtractShieldedActionArg) : Outcome (List Key) :=
  match action_arg with
  | .Event tx_event =>
    match tx_event.attributes.find? (fun attr => attr.key == "inner_tx") with
    | none => .err "Missing required tx result in event"
    | some attr =>
      match TxResult.from_str attr.value with
      | none => .err "Invalid tx result"
      | some tx_result => .ok tx_result.changed_keys
  | .Request _ _ _ => .ok []

/-- The fee-unshielding path of `extract_masp_tx` (`utils.rs` lines
194-240), entered when the header is a wrapper header. -/
def extract_masp_tx_header_path (tx : Tx) (wrapper_header : WrapperTxHeader)
    (action_arg : ExtractShieldedActionArg) : Outcome (List Key × MaspTx) :=
  match wrapper_header.unshield_section_hash with
  | none => .err "Missing expected fee unshielding section hash"
  | some hash =>
    match tx.get_section hash with
    | none => .err "Missing expected masp section"
    | some s =>
      match s.masp_tx with
      | none => .err "Missing masp transaction"
      | some masp_transaction =>
        match extract_masp_tx_changed_keys action_arg with
        | .err m => .err m
        | .panic => .panic
        | .ok changed_keys => .ok (changed_keys, masp_transaction)

/-- The plain value-transfer path of `extract_masp_tx` (`utils.rs` lines
256-301), entered once the data section decoded as a `Transfer`. -/
def extract_masp_tx_transfer_path (tx : Tx) (transfer : Transfer)
    (action_arg : ExtractShieldedActionArg) : Outcome (List Key × MaspTx) :=
  match transfer.shielded with
  | none => .err "Missing masp section hash"
  | some sh =>
    match tx.get_section sh with
    | none => .err "Missing masp section in transaction"
    | some s =>
      match s.masp_tx with
      | none => .err "Missing masp transaction"
      | some masp_transaction =>
        match extract_masp_tx_changed_keys action_arg with
        | .err m => .err m
        | .panic => .panic
        | .ok changed_keys => .ok (changed_keys, masp_transaction)

/-- `.ok().flatten()` over `get_shielded_transfer`, iterated over the
`ibc_events` of a `TxResult` (the `for` loop at `utils.rs` lines 396-409). -/
def find_ibc_shielded_transfer : List IbcEvent → Option IbcShieldedTransfer
  | [] => none
  | ev :: rest =>
    match (get_shielded_transfer ev).join with
    | some transfer => some transfer
    | none => find_ibc_shielded_transfer rest

/-- The `find_map` of the envelope path (`utils.rs` lines 389-414): each
`inner_tx` attr in turn is parsed with `TxResult::from_str(..).unwrap()`
(an unparseable value aborts the call), and the first one whose `ibc_events`
contain a shielded transfer decides the result. -/
def envelope_event_scan : List EventAttribute → Outcome (Option (List Key × MaspTx))
  | [] => .ok none
  | attr :: rest =>
    if attr.key == "inner_tx" then
      match TxResult.from_str attr.value with
      | none => .panic
      | some tx_result =>
        match find_ibc_shielded_transfer tx_result.ibc_events with
        | some transfer => .ok (some (tx_result.changed_keys, transfer.masp_tx))
        | none => envelope_event_scan rest
    else
      envelope_event_scan rest

/-- Obtaining the companion event in the envelope path (`utils.rs` lines
358-387): use the supplied event, or query the block at the given height and
take the first marked event found. -/
def fetch_envelope_event (args : ExtractShieldedActionArg) : Outcome AbciEvent :=
  match args with
  | .Event event => .ok event
  | .Request client height index =>
    match get_indexed_masp_events_at_height client height index with
    | .err m => .err m
    | .panic => .panic
    | .ok none => .err ("Missing required ibc event at block height " ++ toString height)
    | .ok (some events) =>
      match events.head? with
      | none => .err ("Missing required ibc event at block height " ++ toString height)
      | some ie => .ok ie.2

/-- `extract_payload_from_shielded_action` (`utils.rs` lines 316-431). -/
def extract_payload_from_shielded_action (tx_data : TxData)
    (args : ExtractShieldedActionArg) : Outcome (List Key × MaspTx) :=
  match decode_message tx_data with
  | .error e => .err e
  | .ok (.ShieldedTransfer msg) =>
    match args with
    | .Request _ _ _ => .err "Unexpected event request for ShieldedTransfer"
    | .Event tx_event =>
      match tx_event.attributes.find? (fun attr => attr.key == "inner_tx") with
      | none => .err "Couldn't find changed keys in the event for the provided transaction"
      | some attr =>
        match TxResult.from_str attr.value with
        | none => .panic
        | some tx_result => .ok (tx_result.changed_keys, msg.shielded_transfer.masp_tx)
  | .ok .Envelope =>
    match fetch_envelope_event args with
    | .err m => .err m
    | .panic => .panic
    | .ok tx_event =>
      match envelope_event_scan tx_event.attributes with
      | .panic => .panic
      | .err m => .err m
      | .ok none => .err "Couldn't deserialize masp tx to ibc message envelope"
      | .ok (some r) => .ok r
  | .ok .Other => .err "Couldn't deserialize masp tx to a valid ibc message"

/-- The fall-through of `extract_masp_tx` when no header-carried transaction
was found (`utils.rs` lines 248-311): decode the data section as a plain
`Transfer`, and failing that as an IBC message. -/
def extract_masp_tx_from_data (tx : Tx) (action_arg : ExtractShieldedActionArg) :
    Outcome (List Key × MaspTx) :=
  match tx.data with
  | none => .err "Missing data section"
  | some tx_data =>
    match Transfer.try_from_slice tx_data with
    | some transfer => extract_masp_tx_transfer_path tx transfer action_arg
    | none => extract_payload_from_shielded_action tx_data action_arg

/-- `extract_masp_tx` (`utils.rs` lines 181-313). -/
def extract_masp_tx (tx : Tx) (action_arg : ExtractShieldedActionArg)
    (check_header : Bool) : Outcome (List Key × MaspTx) :=
  let maybe_transaction : Outcome (Option (List Key × MaspTx)) :=
    if check_header then
      match tx.wrapper with
      | some wrapper_header =>
        match extract_masp_tx_header_path tx wrapper_header action_arg with
        | .ok t => .ok (some t)
        | .err m => .err m
        | .panic => .panic
      | none => .ok none
    else
      .ok none
  match maybe_transaction with
  | .err m => .err m
  | .panic => .panic
  | .ok (some t) => .ok t
  | .ok none => extract_masp_tx_from_data tx action_arg

/-- One entry of the unscanned cache: `crate::masp::types::IndexedNoteEntry`,
a fetched transaction keyed by its ledger position. -/
abbrev IndexedNoteEntry := IndexedTx × Tx

/-- Modelled from the spec: the unscanned cache (`crate::masp::types::
Unscanned`, not under `src/`) is "an ordered, height-indexed buffer" keyed by
`IndexedTx`; it is represented as an association list strictly sorted by key,
so its `insert` replaces an existing binding for the same key and its
`pop_first` removes the entry with the lowest key. -/
def cache_insert (e : IndexedNoteEntry) : List IndexedNoteEntry → List IndexedNoteEntry
  | [] => [e]
  | x :: xs =>
    if e.1.keyLt x.1 then e :: x :: xs
    else if e.1 = x.1 then e :: xs
    else x :: cache_insert e xs

/-- The representation invariant of the cache: entries strictly sorted by
their `IndexedTx` key. -/
def CacheSorted (l : List IndexedNoteEntry) : Prop :=
  l.Pairwise (fun x y => x.1.keyLt y.1)

/-- The combined state of a fetch-queue sender/receiver pair (`utils.rs`
lines 440-524): both ends share the unscanned `cache`; `last_fetched` is the
buffer of the flume channel on which `send` publishes heights, and
`sender_count` is what `last_fetched.sender_count()` reports. -/
structure FetchQueueState where
  cache : List IndexedNoteEntry
  last_fetched : List Nat
  sender_count : Nat
deriving Repr, DecidableEq

/-- `fetch_channel::new` (`utils.rs` lines 504-525): sender and receiver
share the given cache, and one live sender exists. -/
def fetch_channel_new (cache : List IndexedNoteEntry) : FetchQueueState :=
  { cache := cache, last_fetched := [], sender_count := 1 }

/-- `FetchQueueSender::send` (`utils.rs` lines 497-500): publish the entry's
height on the liveness channel, then insert it into the cache. -/
def FetchQueueSender.send (st : FetchQueueState) (data : IndexedNoteEntry) : FetchQueueState :=
  { st with
    last_fetched := st.last_fetched ++ [data.1.height]
    cache := cache_insert data st.cache }

/-- A sequence of `send` calls in arrival order. -/
def FetchQueueSender.sends (entries : List IndexedNoteEntry) (st : FetchQueueState) :
    FetchQueueState :=
  entries.foldl FetchQueueSender.send st

/-- Dropping a sender clone decrements the live-sender count of the flume
channel; dropping the last one closes the sending side. -/
def FetchQueueSender.close (st : FetchQueueState) : FetchQueueState :=
  { st with sender_count := st.sender_count - 1 }

/-- `FetchQueueReceiver::sender_alive` (`utils.rs` lines 464-466). -/
def FetchQueueReceiver.sender_alive (st : FetchQueueState) : Bool :=
  st.sender_count > 0

/-- Result of one `next()` call of the receiver's iterator under a quiescent
environment (no interleaved `send` or sender drop): an entry plus the
successor state, the terminal `None`, or an unbounded wait in the polling
loop. -/
inductive NextResult where
  | item (e : IndexedNoteEntry) (st : FetchQueueState)
  | closed
  | blocked
deriving Repr, DecidableEq

/-- `FetchQueueReceiver::next` (`utils.rs` lines 472-483): pop the lowest
entry if the cache is non-empty; on an empty cache, poll until the sender
side closes (with no interleaved activity the loop either exits at once or
never). -/
def FetchQueueReceiver.next (st : FetchQueueState) : NextResult :=
  match st.cache with
  | e :: rest => .item e { st with cache := rest }
  | [] => if FetchQueueReceiver.sender_alive st then .blocked else .closed

/-- Recursion core of `FetchQueueReceiver.drain_all`: iterate over a copy of
the receiver's cache (kept equal to `st.cache` at every call, which makes
the recursion structural). -/
def FetchQueueReceiver.drain_go : List IndexedNoteEntry → FetchQueueState →
    List IndexedNoteEntry × NextResult
  | [], st => ([], FetchQueueReceiver.next st)
  | e :: rest, st =>
    let r := FetchQueueReceiver.drain_go rest { st with cache := rest }
    (e :: r.1, r.2)

/-- Exhaustively iterating the receiver: the list of entries yielded by
repeated `next()` calls, paired with the call outcome that follows the last
yielded entry. -/
def FetchQueueReceiver.drain_all (st : FetchQueueState) : List IndexedNoteEntry × NextResult :=
  FetchQueueReceiver.drain_go st.cache st

/-- `Result::is_err` -/
def Except.is_err {e a : Type} : Except e a → Bool
  | .error _ => true
  | .ok _ => false

/-- A request submitted on the task manager's channel (`utils.rs` lines
527-530): `Data` carries the shared context handle (always the same one) and
a block height, so only the height is recorded. -/
inductive TaskAction where
  | Complete
  | Data (height : Nat)
deriving Repr, DecidableEq

/-- `TaskManager::run` (`utils.rs` lines 561-572), applied to the full
sequence of actions its channel will ever yield, starting from the given
`latest_height`: returns the final `latest_height` and the heights at which
a save was performed, in processing order. -/
def TaskManager.run : List TaskAction → Nat → Nat × List Nat
  | [], latest_height => (latest_height, [])
  | TaskAction.Complete :: _, latest_height => (latest_height, [])
  | TaskAction.Data height :: rest, latest_height =>
    let r := TaskManager.run rest height
    (r.1, height :: r.2)

/-- The spec's description of the same loop, written from its words: the
actor handles requests "one at a time, strictly in the order submitted,
terminating its loop on `complete` or when the request channel is closed",
saving at each `Data` height. -/
def spec_processed_heights (actions : List TaskAction) : List Nat :=
  (actions.takeWhile (fun a => match a with | TaskAction.Complete => false | _ => true)).filterMap
    (fun a => match a with | TaskAction.Data h => some h | TaskAction.Complete => none)

/-- `TaskManagerChannel::update_witness_map` (`utils.rs` lines 587-598): the
inner `ShieldedContext::update_witness_map` call (in `shielded_ctx.rs`, not
under `src/`) is abstracted by its result; returns that result together with
the actions the call submits on the channel. -/
def TaskManagerChannel.update_witness_map (res : Except String Unit) :
    Except String Unit × List TaskAction :=
  (res, if res.is_err then [TaskAction.Complete] else [])

/-- `TaskManagerChannel::scan_tx` (`utils.rs` lines 600-615), abstracted the
same way as `TaskManagerChannel.update_witness_map`. -/
def TaskManagerChannel.scan_tx (res : Except String Unit) :
    Except String Unit × List TaskAction :=
  (res, if res.is_err then [TaskAction.Complete] else [])

/-- A viewing key, opaque to the task-manager logic. -/
abbrev ViewingKey := Nat

/-- Modelled from the spec: the Shielded Context (`shielded_ctx.rs`, not
under `src/`) aggregates the per-viewing-key checkpoint map `vk_heights`
(the only field `get_vk_heights`/`set_vk_heights` touch), the incremental
witness map and the nullifier set. -/
structure ShieldedContext where
  vk_heights : List (ViewingKey × Option IndexedTx)
  witness_map : List (Nat × Nat)
  nullifiers : List Nat
deriving Repr, DecidableEq

/-- `TaskManagerChannel::get_vk_heights` (`utils.rs` lines 617-624):
`mem::swap` the checkpoint map with a fresh empty map and return the old
one, together with the context left behind. -/
def TaskManagerChannel.get_vk_heights (ctx : ShieldedContext) :
    List (ViewingKey × Option IndexedTx) × ShieldedContext :=
  (ctx.vk_heights, { ctx with vk_heights := [] })

/-- `TaskManagerChannel::set_vk_heights` (`utils.rs` lines 626-632):
`mem::swap` the given map into the context (the swapped-out one is
dropped). -/
def TaskManagerChannel.set_vk_heights (vk_heights : List (ViewingKey × Option IndexedTx))
    (ctx : ShieldedContext) : ShieldedContext :=
  { ctx with vk_heights := vk_heights }

/-- An inert transaction payload used in concrete queue scenarios. -/
def t0 : Tx := { wrapper := none, data := none, sections := [] }

/-- A client whose `block_results` always succeeds with no events; used in
concrete request-context scenarios (the paths exercised never reach it). -/
def trivial_client : Client := fun _ => Except.ok none

/-- A concrete wrapper transaction with no fee-unshielding section hash but
a perfectly decodable data section: a transfer resolving to the MASP
section `42`. -/
def c2_tx : Tx :=
  { wrapper := some { unshield_section_hash := none }
    data := some (TxData.transfer { shielded := some 1 })
    sections := [(1, TxSection.masp 42)] }

/-- A concrete event whose single `is_valid_masp_tx` attr parses, followed
by one that does not. -/
def c10_event : AbciEvent :=
  { attributes :=
      [{ key := "is_valid_masp_tx", value := AttrVal.str "3" },
       { key := "is_valid_masp_tx", value := AttrVal.str "foo" }] }

theorem IndexedTx.keyLt_trans {a b c : IndexedTx} (h1 : a.keyLt b) (h2 : b.keyLt c) :
    a.keyLt c := by
  rcases a with ⟨ah, ai⟩
  rcases b with ⟨bh, bi⟩
  rcases c with ⟨ch, ci⟩
  simp only [IndexedTx.keyLt] at *
  omega

theorem IndexedTx.keyLt_of_not_of_ne {a b : IndexedTx} (h1 : ¬ a.keyLt b) (h2 : a ≠ b) :
    b.keyLt a := by
  rcases a with ⟨ah, ai⟩
  rcases b with ⟨bh, bi⟩
  simp only [IndexedTx.keyLt, ne_eq, IndexedTx.mk.injEq] at *
  omega

theorem IndexedTx.keyLt_height_le {a b : IndexedTx} (h : a.keyLt b) : a.height ≤ b.height := by
  rcases h with h | ⟨h, _⟩
  · exact Nat.le_of_lt h
  · exact Nat.le_of_eq h

theorem mem_cache_insert {y e : IndexedNoteEntry} :
    ∀ {l : List IndexedNoteEntry}, y ∈ cache_insert e l → y = e ∨ y ∈ l := by
  intro l
  induction l with
  | nil =>
    intro h
    simp only [cache_insert, List.mem_singleton] at h
    exact Or.inl h
  | cons x xs ih =>
    simp only [cache_insert]
    split
    · intro h
      rcases List.mem_cons.mp h with rfl | h
      · exact Or.inl rfl
      · exact Or.inr h
    · split
      · intro h
        rcases List.mem_cons.mp h with rfl | h
        · exact Or.inl rfl
        · exact Or.inr (List.mem_cons_of_mem x h)
      · intro h
        rcases List.mem_cons.mp h with rfl | h
        · exact Or.inr (List.mem_cons_self y xs)
        · rcases ih h with rfl | h
          · exact Or.inl rfl
          · exact Or.inr (List.mem_cons_of_mem x h)

theorem cache_insert_sorted (e : IndexedNoteEntry) {l : List IndexedNoteEntry}
    (h : CacheSorted l) : CacheSorted (cache_insert e l) := by
  induction l with
  | nil => simp [cache_insert, CacheSorted]
  | cons x xs ih =>
    simp only [CacheSorted, List.pairwise_cons] at h
    obtain ⟨hx, hxs⟩ := h
    by_cases h1 : e.1.keyLt x.1
    · simp only [cache_insert, if_pos h1]
      refine List.Pairwise.cons ?_ (List.Pairwise.cons hx hxs)
      intro y hy
      rcases List.mem_cons.mp hy with rfl | hy
      · exact h1
      · exact IndexedTx.keyLt_trans h1 (hx y hy)
    · by_cases h2 : e.1 = x.1
      · simp only [cache_insert, if_neg h1, if_pos h2]
        refine List.Pairwise.cons ?_ hxs
        intro y hy
        rw [h2]
        exact hx y hy
      · simp only [cache_insert, if_neg h1, if_neg h2]
        refine List.Pairwise.cons ?_ (ih hxs)
        intro y hy
        rcases mem_cache_insert hy with rfl | hy
        · exact IndexedTx.keyLt_of_not_of_ne h1 h2
        · exact hx y hy

theorem sends_sorted (entries : List IndexedNoteEntry) :
    ∀ st : FetchQueueState, CacheSorted st.cache →
      CacheSorted (FetchQueueSender.sends entries st).cache := by
  induction entries with
  | nil => intro st h; exact h
  | cons e es ih =>
    intro st h
    simp only [FetchQueueSender.sends, List.foldl_cons]
    exact ih _ (cache_insert_sorted e h)

theorem cache_sorted_heights {l : List IndexedNoteEntry} (h : CacheSorted l) :
    List.Sorted (· ≤ ·) (l.map (fun e => e.1.height)) :=
  List.Pairwise.map _ (fun a b hab => IndexedTx.keyLt_height_le hab) h

theorem drain_all_next (st : FetchQueueState) :
    FetchQueueReceiver.drain_all st =
      match FetchQueueReceiver.next st with
      | NextResult.item e st2 =>
        (e :: (FetchQueueReceiver.drain_all st2).1, (FetchQueueReceiver.drain_all st2).2)
      | r => ([], r) := by
  cases hc : st.cache with
  | nil =>
    simp only [FetchQueueReceiver.drain_all, FetchQueueReceiver.next, hc,
      FetchQueueReceiver.drain_go]
    cases FetchQueueReceiver.sender_alive st <;> simp
  | cons e rest =>
    simp [FetchQueueReceiver.drain_all, FetchQueueReceiver.next, hc,
      FetchQueueReceiver.drain_go]

theorem drain_go_fst : ∀ (c : List IndexedNoteEntry) (st : FetchQueueState),
    (FetchQueueReceiver.drain_go c st).1 = c := by
  intro c
  induction c with
  | nil => intro st; rfl
  | cons e rest ih => intro st; simp [FetchQueueReceiver.drain_go, ih]

theorem drain_all_fst (st : FetchQueueState) :
    (FetchQueueReceiver.drain_all st).1 = st.cache :=
  drain_go_fst st.cache st

theorem drain_go_snd : ∀ (c : List IndexedNoteEntry) (st : FetchQueueState),
    st.cache = c → st.sender_count = 0 →
    (FetchQueueReceiver.drain_go c st).2 = NextResult.closed := by
  intro c
  induction c with
  | nil =>
    intro st hc h0
    simp [FetchQueueReceiver.drain_go, FetchQueueReceiver.next, hc,
      FetchQueueReceiver.sender_alive, h0]
  | cons e rest ih =>
    intro st hc h0
    simp only [FetchQueueReceiver.drain_go]
    exact ih { st with cache := rest } rfl h0

/-- Claim C1: for every sequence of `FetchQueueSender::send` calls with
heights in arbitrary arrival order, repeated `FetchQueueReceiver::next`
calls yield the cached entries in non-decreasing height order; in
particular, sending entries at heights 10, 8, 9 in that arrival order and
then closing the sender makes `next()` yield the entries at heights
8, 9, 10 and then none. -/
theorem fetch_queue_height_ordering :
    (∀ entries : List IndexedNoteEntry,
      List.Sorted (· ≤ ·)
        ((FetchQueueReceiver.drain_all
            (FetchQueueSender.close
              (FetchQueueSender.sends entries (fetch_channel_new [])))).1.map
          (fun e => e.1.height)))
    ∧ FetchQueueReceiver.drain_all
        (FetchQueueSender.close
          (FetchQueueSender.sends [(⟨10, 0⟩, t0), (⟨8, 0⟩, t0), (⟨9, 0⟩, t0)]
            (fetch_channel_new [])))
      = ([(⟨8, 0⟩, t0), (⟨9, 0⟩, t0), (⟨10, 0⟩, t0)], NextResult.closed) := by
  constructor
  · intro entries
    have hs : CacheSorted (FetchQueueSender.sends entries (fetch_channel_new [])).cache :=
      sends_sorted entries _ (by simp [fetch_channel_new, CacheSorted])
    rw [drain_all_fst]
    exact cache_sorted_heights hs
  · decide

/-- Claim C4: if every sender clone has been dropped and the unscanned cache
is empty, `FetchQueueReceiver::next` returns none (the sequence terminates
instead of blocking); conversely, while the cache is non-empty `next`
returns the lowest-height entry. -/
theorem fetch_queue_next_liveness :
    ∀ st : FetchQueueState,
      (st.sender_count = 0 → st.cache = [] →
        FetchQueueReceiver.next st = NextResult.closed)
      ∧ (∀ e rest, st.cache = e :: rest → CacheSorted st.cache →
          FetchQueueReceiver.next st = NextResult.item e { st with cache := rest }
          ∧ ∀ x ∈ st.cache, e.1.height ≤ x.1.height) := by
  intro st
  constructor
  · intro h0 hc
    simp [FetchQueueReceiver.next, hc, FetchQueueReceiver.sender_alive, h0]
  · intro e rest hc hs
    constructor
    · simp [FetchQueueReceiver.next, hc]
    · intro x hx
      rw [hc] at hx hs
      simp only [CacheSorted, List.pairwise_cons] at hs
      rcases List.mem_cons.mp hx with rfl | hx
      · exact le_refl _
      · exact IndexedTx.keyLt_height_le (hs.1 x hx)

theorem fetch_queue_next_liveness_witness :
    FetchQueueReceiver.next ⟨[], [], 0⟩ = NextResult.closed
    ∧ FetchQueueReceiver.next ⟨[(⟨3, 0⟩, t0)], [], 1⟩
        = NextResult.item (⟨3, 0⟩, t0) ⟨[], [], 1⟩ :=
  ⟨(fetch_queue_next_liveness ⟨[], [], 0⟩).1 rfl rfl,
   ((fetch_queue_next_liveness ⟨[(⟨3, 0⟩, t0)], [], 1⟩).2 (⟨3, 0⟩, t0) [] rfl
      (by simp [CacheSorted])).1⟩

/-- Claim C7: every failing `TaskManagerChannel::update_witness_map` or
`TaskManagerChannel::scan_tx` call submits a `Complete` request on the
task-manager channel before returning the error; a succeeding call submits
nothing. -/
theorem task_manager_complete_on_error :
    ∀ res : Except String Unit,
      (res.is_err = true →
        (TaskManagerChannel.update_witness_map res).2 = [TaskAction.Complete]
        ∧ (TaskManagerChannel.update_witness_map res).1 = res
        ∧ (TaskManagerChannel.scan_tx res).2 = [TaskAction.Complete]
        ∧ (TaskManagerChannel.scan_tx res).1 = res)
      ∧ (res.is_err = false →
        (TaskManagerChannel.update_witness_map res).2 = []
        ∧ (TaskManagerChannel.scan_tx res).2 = []) := by
  intro res
  constructor <;> intro h <;>
    simp [TaskManagerChannel.update_witness_map, TaskManagerChannel.scan_tx, h]

theorem task_manager_complete_on_error_witness :
    (TaskManagerChannel.update_witness_map (Except.error "bad")).2 = [TaskAction.Complete]
    ∧ (TaskManagerChannel.scan_tx (Except.ok ())).2 = [] :=
  ⟨((task_manager_complete_on_error (Except.error "bad")).1 rfl).1,
   ((task_manager_complete_on_error (Except.ok ())).2 rfl).2⟩

/-- Claim C8: `TaskManager::run` processes the submitted actions one at a
time in submission order; each `Data` action sets `latest_height` and
performs a save, and the loop stops at the first `Complete` or at channel
exhaustion — as captured by the spec-side description
`spec_processed_heights`. -/
theorem task_manager_run_in_order :
    ∀ (actions : List TaskAction) (latest_height : Nat),
      TaskManager.run actions latest_height
        = ((spec_processed_heights actions).getLastD latest_height,
           spec_processed_heights actions) := by
  intro actions
  induction actions with
  | nil => intro h; simp [TaskManager.run, spec_processed_heights]
  | cons a rest ih =>
    intro h
    cases a with
    | Complete => simp [TaskManager.run, spec_processed_heights]
    | Data hh =>
      have hspec : spec_processed_heights (TaskAction.Data hh :: rest)
          = hh :: spec_processed_heights rest := by
        simp [spec_processed_heights, List.takeWhile_cons]
      simp only [TaskManager.run, ih hh, hspec, List.getLastD_cons]

/-- Claim C9: `get_vk_heights` removes and returns the whole checkpoint map
(leaving an empty one behind) and a subsequent `set_vk_heights` with the
returned map restores the context exactly; no other field is touched. -/
theorem vk_heights_swap_roundtrip :
    ∀ ctx : ShieldedContext,
      TaskManagerChannel.set_vk_heights (TaskManagerChannel.get_vk_heights ctx).1
          (TaskManagerChannel.get_vk_heights ctx).2 = ctx
      ∧ (TaskManagerChannel.get_vk_heights ctx).1 = ctx.vk_heights
      ∧ ((TaskManagerChannel.get_vk_heights ctx).2).vk_heights = []
      ∧ ((TaskManagerChannel.get_vk_heights ctx).2).witness_map = ctx.witness_map
      ∧ ((TaskManagerChannel.get_vk_heights ctx).2).nullifiers = ctx.nullifiers := by
  intro ctx
  cases ctx
  simp [TaskManagerChannel.get_vk_heights, TaskManagerChannel.set_vk_heights]

/-- Claim C2 (amended): with header checking enabled, a transaction whose
header is not a wrapper header falls through to decoding the main data
section (first as a plain transfer, then as an inter-chain message, as
`extract_masp_tx_from_data` does); a wrapper-header transaction without a
fee-unshielding section hash instead fails with the missing-hash error. -/
theorem extract_masp_tx_header_dispatch :
    ∀ (tx : Tx) (action_arg : ExtractShieldedActionArg),
      (tx.wrapper = none →
        extract_masp_tx tx action_arg true = extract_masp_tx_from_data tx action_arg)
      ∧ (∀ wrapper_header, tx.wrapper = some wrapper_header →
          wrapper_header.unshield_section_hash = none →
          extract_masp_tx tx action_arg true
            = Outcome.err "Missing expected fee unshielding section hash") := by
  intro tx action_arg
  constructor
  · intro h
    simp [extract_masp_tx, h]
  · intro wrapper_header h1 h2
    simp [extract_masp_tx, h1, extract_masp_tx_header_path, h2]

theorem extract_masp_tx_header_dispatch_witness :
    extract_masp_tx c2_tx (ExtractShieldedActionArg.Request trivial_client 1 none) true
      = Outcome.err "Missing expected fee unshielding section hash"
    ∧ extract_masp_tx ⟨none, some (TxData.transfer ⟨some 1⟩), [(1, TxSection.masp 42)]⟩
        (ExtractShieldedActionArg.Request trivial_client 1 none) true
      = extract_masp_tx_from_data ⟨none, some (TxData.transfer ⟨some 1⟩), [(1, TxSection.masp 42)]⟩
          (ExtractShieldedActionArg.Request trivial_client 1 none) :=
  ⟨(extract_masp_tx_header_dispatch c2_tx _).2 { unshield_section_hash := none } rfl rfl,
   (extract_masp_tx_header_dispatch _ _).1 rfl⟩

/-- Counterexample to claim C2 as stated: `c2_tx` carries no fee-unshielding
section reference, yet extraction with header checking fails with the
missing-hash error instead of proceeding to decode the (perfectly
decodable) main data, which would have produced the MASP section `42` with
an empty changed-keys set. -/
theorem extract_masp_tx_header_counterexample :
    extract_masp_tx c2_tx (ExtractShieldedActionArg.Request trivial_client 1 none) true
      = Outcome.err "Missing expected fee unshielding section hash"
    ∧ extract_masp_tx_from_data c2_tx (ExtractShieldedActionArg.Request trivial_client 1 none)
      = Outcome.ok ([], 42) := by
  constructor
  · rfl
  · rfl

theorem envelope_scan_no_inner_tx {attrs : List EventAttribute}
    (h : ∀ a ∈ attrs, a.key ≠ "inner_tx") :
    envelope_event_scan attrs = Outcome.ok none := by
  induction attrs with
  | nil => rfl
  | cons a rest ih =>
    have ha := h a (List.mem_cons_self a rest)
    simp only [envelope_event_scan]
    rw [if_neg (by simpa using ha)]
    exact ih (fun x hx => h x (List.mem_cons_of_mem a hx))

/-- Claim C6: an enveloped inter-chain message whose supplied
execution-result event has no attr with key `inner_tx` makes the
extraction call fail with an error; the extraction functions are pure (they
receive no witness-map, nullifier or checkpoint state), so the failing call
mutates nothing. -/
theorem envelope_missing_inner_tx_fails :
    ∀ (tx_data : TxData) (tx_event : AbciEvent),
      decode_message tx_data = Except.ok IbcMessage.Envelope →
      (∀ a ∈ tx_event.attributes, a.key ≠ "inner_tx") →
      extract_payload_from_shielded_action tx_data (ExtractShieldedActionArg.Event tx_event)
        = Outcome.err "Couldn't deserialize masp tx to ibc message envelope" := by
  intro tx_data tx_event hd hattrs
  cases tx_data with
  | transfer t => simp [decode_message] at hd
  | raw_bytes => simp [decode_message] at hd
  | ibc m =>
    simp only [decode_message, Except.ok.injEq] at hd
    subst hd
    simp [extract_payload_from_shielded_action, decode_message, fetch_envelope_event,
      envelope_scan_no_inner_tx hattrs]

theorem envelope_missing_inner_tx_fails_witness :
    extract_payload_from_shielded_action (TxData.ibc IbcMessage.Envelope)
      (ExtractShieldedActionArg.Event ⟨[⟨"applied", AttrVal.str "1"⟩]⟩)
      = Outcome.err "Couldn't deserialize masp tx to ibc message envelope" :=
  envelope_missing_inner_tx_fails _ _ rfl (by decide)

theorem header_path_request_keys (tx : Tx) (wh : WrapperTxHeader) (c : Client) (hh : Nat)
    (i : Option Nat) (p : List Key × MaspTx)
    (h : extract_masp_tx_header_path tx wh (ExtractShieldedActionArg.Request c hh i)
      = Outcome.ok p) : p.1 = [] := by
  unfold extract_masp_tx_header_path at h
  cases hu : wh.unshield_section_hash with
  | none => simp [hu] at h
  | some hash =>
    simp only [hu] at h
    cases hg : tx.get_section hash with
    | none => simp [hg] at h
    | some s =>
      simp only [hg] at h
      cases hm : s.masp_tx with
      | none => simp [hm] at h
      | some m =>
        simp only [hm, extract_masp_tx_changed_keys, Outcome.ok.injEq] at h
        rw [← h]

theorem transfer_path_request_keys (tx : Tx) (transfer : Transfer) (c : Client) (hh : Nat)
    (i : Option Nat) (p : List Key × MaspTx)
    (h : extract_masp_tx_transfer_path tx transfer (ExtractShieldedActionArg.Request c hh i)
      = Outcome.ok p) : p.1 = [] := by
  unfold extract_masp_tx_transfer_path at h
  cases hu : transfer.shielded with
  | none => simp [hu] at h
  | some sh =>
    simp only [hu] at h
    cases hg : tx.get_section sh with
    | none => simp [hg] at h
    | some s =>
      simp only [hg] at h
      cases hm : s.masp_tx with
      | none => simp [hm] at h
      | some m =>
        simp only [hm, extract_masp_tx_changed_keys, Outcome.ok.injEq] at h
        rw [← h]

theorem from_data_request_keys (tx : Tx) (c : Client) (hh : Nat) (i : Option Nat)
    (p : List Key × MaspTx)
    (h : extract_masp_tx_from_data tx (ExtractShieldedActionArg.Request c hh i)
      = Outcome.ok p) :
    p.1 = [] ∨ ∃ d, tx.data = some d ∧ decode_message d = Except.ok IbcMessage.Envelope := by
  unfold extract_masp_tx_from_data at h
  cases hd : tx.data with
  | none => simp [hd] at h
  | some d =>
    simp only [hd] at h
    cases ht : Transfer.try_from_slice d with
    | some transfer =>
      simp only [ht] at h
      exact Or.inl (transfer_path_request_keys tx transfer c hh i p h)
    | none =>
      simp only [ht] at h
      unfold extract_payload_from_shielded_action at h
      cases hm : decode_message d with
      | error e => simp [hm] at h
      | ok msg =>
        simp only [hm] at h
        cases msg with
        | ShieldedTransfer msg => simp at h
        | Envelope => exact Or.inr ⟨d, rfl, hm⟩
        | Other => simp at h

/-- Claim C3 (amended): in the pure RPC-request context, whenever extraction
succeeds through the fee-unshielding or plain value-transfer shapes the
returned changed-keys set is empty and the absence of changed-key
information never fails the call (a successful call with non-empty keys can
only come from the enveloped-message shape, whose keys come from the event
the extractor itself fetches); a direct inter-chain shielded-transfer
message in the request context instead fails with an error. -/
theorem request_context_changed_keys :
    ∀ (tx : Tx) (client : Client) (height : Nat) (index : Option Nat)
      (check_header : Bool) (keys : List Key) (mtx : MaspTx),
      (extract_masp_tx tx (ExtractShieldedActionArg.Request client height index) check_header
          = Outcome.ok (keys, mtx) →
        keys = [] ∨ ∃ d, tx.data = some d ∧ decode_message d = Except.ok IbcMessage.Envelope)
      ∧ (∀ (d : TxData) (msg : MsgShieldedTransfer),
          decode_message d = Except.ok (IbcMessage.ShieldedTransfer msg) →
          extract_payload_from_shielded_action d
              (ExtractShieldedActionArg.Request client height index)
            = Outcome.err "Unexpected event request for ShieldedTransfer") := by
  intro tx c hh i ch keys mtx
  constructor
  · intro h
    cases ch with
    | false =>
      rw [show extract_masp_tx tx (ExtractShieldedActionArg.Request c hh i) false
            = extract_masp_tx_from_data tx (ExtractShieldedActionArg.Request c hh i) from rfl] at h
      exact from_data_request_keys tx c hh i (keys, mtx) h
    | true =>
      cases hw : tx.wrapper with
      | none =>
        simp only [extract_masp_tx, hw, if_true] at h
        exact from_data_request_keys tx c hh i (keys, mtx) h
      | some wh =>
        simp only [extract_masp_tx, hw, if_true] at h
        cases hp : extract_masp_tx_header_path tx wh (ExtractShieldedActionArg.Request c hh i) with
        | ok t =>
          simp only [hp, Outcome.ok.injEq] at h
          subst h
          exact Or.inl (header_path_request_keys tx wh c hh i (keys, mtx) hp)
        | err m => simp [hp] at h
        | panic => simp [hp] at h
  · intro d msg hd
    cases d with
    | transfer t => simp [decode_message] at hd
    | raw_bytes => simp [decode_message] at hd
    | ibc m =>
      simp only [decode_message, Except.ok.injEq] at hd
      subst hd
      rfl

theorem request_context_changed_keys_witness :
    extract_payload_from_shielded_action (TxData.ibc (IbcMessage.ShieldedTransfer ⟨⟨9⟩⟩))
      (ExtractShieldedActionArg.Request trivial_client 4 none)
      = Outcome.err "Unexpected event request for ShieldedTransfer"
    ∧ (([] : List Key) = []
       ∨ ∃ d, (⟨none, some (TxData.transfer ⟨some 2⟩), [(2, TxSection.masp 7)]⟩ : Tx).data
            = some d ∧ decode_message d = Except.ok IbcMessage.Envelope) :=
  ⟨(request_context_changed_keys ⟨none, some (TxData.transfer ⟨some 2⟩), [(2, TxSection.masp 7)]⟩
      trivial_client 4 none true [] 7).2 (TxData.ibc (IbcMessage.ShieldedTransfer ⟨⟨9⟩⟩))
      ⟨⟨9⟩⟩ rfl,
   (request_context_changed_keys ⟨none, some (TxData.transfer ⟨some 2⟩), [(2, TxSection.masp 7)]⟩
      trivial_client 4 none true [] 7).1 rfl⟩

/-- Counterexample to claim C3 as stated: a direct inter-chain
shielded-transfer message handed to the extractor in the pure RPC-request
context fails outright instead of succeeding with an empty changed-keys
set. -/
theorem request_context_shielded_transfer_counterexample :
    extract_masp_tx ⟨none, some (TxData.ibc (IbcMessage.ShieldedTransfer ⟨⟨9⟩⟩)), []⟩
      (ExtractShieldedActionArg.Request trivial_client 4 none) true
      = Outcome.err "Unexpected event request for ShieldedTransfer" := rfl

/-- Claim C5 (amended): an undecodable data payload and an unsupported
message kind fail the single extraction call with a returned error, as does
an unparseable `inner_tx` attr value in the two direct paths of
`extract_masp_tx`; in the inter-chain message paths of
`extract_payload_from_shielded_action`, however, an unparseable `inner_tx`
value aborts the call by panicking (`TxResult::from_str(..).unwrap()`)
instead of returning the error. -/
theorem decode_failures_policy :
    ∀ (tx_data : TxData) (args : ExtractShieldedActionArg),
      (∀ e, decode_message tx_data = Except.error e →
        extract_payload_from_shielded_action tx_data args = Outcome.err e)
      ∧ (decode_message tx_data = Except.ok IbcMessage.Other →
        extract_payload_from_shielded_action tx_data args
          = Outcome.err "Couldn't deserialize masp tx to a valid ibc message")
      ∧ (∀ (tx_event : AbciEvent) (attr : EventAttribute),
          tx_event.attributes.find? (fun a => a.key == "inner_tx") = some attr →
          TxResult.from_str attr.value = none →
          extract_masp_tx_changed_keys (ExtractShieldedActionArg.Event tx_event)
            = Outcome.err "Invalid tx result")
      ∧ (∀ (msg : MsgShieldedTransfer) (tx_event : AbciEvent) (attr : EventAttribute),
          decode_message tx_data = Except.ok (IbcMessage.ShieldedTransfer msg) →
          tx_event.attributes.find? (fun a => a.key == "inner_tx") = some attr →
          TxResult.from_str attr.value = none →
          extract_payload_from_shielded_action tx_data
              (ExtractShieldedActionArg.Event tx_event) = Outcome.panic)
      ∧ (∀ (tx_event : AbciEvent) (attr : EventAttribute) (rest : List EventAttribute),
          decode_message tx_data = Except.ok IbcMessage.Envelope →
          tx_event.attributes = attr :: rest →
          attr.key = "inner_tx" →
          TxResult.from_str attr.value = none →
          extract_payload_from_shielded_action tx_data
              (ExtractShieldedActionArg.Event tx_event) = Outcome.panic) := by
  intro tx_data args
  refine ⟨?_, ?_, ?_, ?_, ?_⟩
  · intro e he
    cases tx_data with
    | transfer t =>
      simp only [decode_message, Except.error.injEq] at he
      subst he
      cases args <;> rfl
    | raw_bytes =>
      simp only [decode_message, Except.error.injEq] at he
      subst he
      cases args <;> rfl
    | ibc m => simp [decode_message] at he
  · intro he
    cases tx_data with
    | transfer t => simp [decode_message] at he
    | raw_bytes => simp [decode_message] at he
    | ibc m =>
      simp only [decode_message, Except.ok.injEq] at he
      subst he
      cases args <;> rfl
  · intro tx_event attr hfind hparse
    simp [extract_masp_tx_changed_keys, hfind, hparse]
  · intro msg tx_event attr hd hfind hparse
    cases tx_data with
    | transfer t => simp [decode_message] at hd
    | raw_bytes => simp [decode_message] at hd
    | ibc m =>
      simp only [decode_message, Except.ok.injEq] at hd
      subst hd
      simp [extract_payload_from_shielded_action, decode_message, hfind, hparse]
  · intro tx_event attr rest hd hattrs hkey hparse
    cases tx_data with
    | transfer t => simp [decode_message] at hd
    | raw_bytes => simp [decode_message] at hd
    | ibc m =>
      simp only [decode_message, Except.ok.injEq] at hd
      subst hd
      simp [extract_payload_from_shielded_action, decode_message, fetch_envelope_event,
        hattrs, envelope_event_scan, hkey, hparse]

theorem decode_failures_policy_witness :
    extract_payload_from_shielded_action TxData.raw_bytes
        (ExtractShieldedActionArg.Event ⟨[]⟩) = Outcome.err "unknown IBC message"
    ∧ extract_payload_from_shielded_action (TxData.ibc (IbcMessage.ShieldedTransfer ⟨⟨5⟩⟩))
        (ExtractShieldedActionArg.Event ⟨[⟨"inner_tx", AttrVal.str "garbage"⟩]⟩)
      = Outcome.panic :=
  ⟨(decode_failures_policy TxData.raw_bytes (ExtractShieldedActionArg.Event ⟨[]⟩)).1
      "unknown IBC message" rfl,
   (decode_failures_policy (TxData.ibc (IbcMessage.ShieldedTransfer ⟨⟨5⟩⟩))
      (ExtractShieldedActionArg.Event ⟨[⟨"inner_tx", AttrVal.str "garbage"⟩]⟩)).2.2.2.1
      ⟨⟨5⟩⟩ ⟨[⟨"inner_tx", AttrVal.str "garbage"⟩]⟩ ⟨"inner_tx", AttrVal.str "garbage"⟩
      rfl (by decide) rfl⟩

/-- Counterexample to claim C5 as stated: a direct inter-chain
shielded-transfer message whose event carries an `inner_tx` attr that does
not parse as an execution result makes the extraction call panic instead of
returning an error. -/
theorem inner_tx_unwrap_panics :
    extract_payload_from_shielded_action (TxData.ibc (IbcMessage.ShieldedTransfer ⟨⟨5⟩⟩))
      (ExtractShieldedActionArg.Event ⟨[⟨"inner_tx", AttrVal.str "garbage"⟩]⟩)
      = Outcome.panic := by decide

theorem masp_event_index_panic {e : AbciEvent} (h : bad_masp_attr e = true) :
    masp_event_index e = Outcome.panic := by
  unfold bad_masp_attr at h
  unfold masp_event_index
  cases hf : e.attributes.find? (fun attr => attr.key == "is_valid_masp_tx") with
  | none => simp [hf] at h
  | some attr =>
    simp only [hf] at h ⊢
    cases hp : u32_from_str attr.value with
    | none => simp [hp]
    | some n => simp [hp] at h

theorem masp_event_index_ok {e : AbciEvent} (h : bad_masp_attr e = false) :
    ∃ o, masp_event_index e = Outcome.ok o := by
  unfold bad_masp_attr at h
  unfold masp_event_index
  cases hf : e.attributes.find? (fun attr => attr.key == "is_valid_masp_tx") with
  | none => exact ⟨none, rfl⟩
  | some attr =>
    simp only [hf] at h ⊢
    cases hp : u32_from_str attr.value with
    | none => simp [hp] at h
    | some n => exact ⟨some n, by simp [hp]⟩

theorem filter_masp_events_panic (first_idx : Nat) :
    ∀ events : List AbciEvent, (∃ e ∈ events, bad_masp_attr e = true) →
      filter_masp_events first_idx events = Outcome.panic := by
  intro events
  induction events with
  | nil => intro h; simp at h
  | cons e es ih =>
    intro h
    cases hb : bad_masp_attr e with
    | true => simp only [filter_masp_events, masp_event_index_panic hb]
    | false =>
      obtain ⟨x, hx, hbx⟩ := h
      rcases List.mem_cons.mp hx with rfl | hx
      · simp [hb] at hbx
      · obtain ⟨o, ho⟩ := masp_event_index_ok hb
        have hrec := ih ⟨x, hx, hbx⟩
        simp only [filter_masp_events, ho]
        cases o with
        | none => exact hrec
        | some idx =>
          by_cases hle : first_idx ≤ idx
          · simp only [if_pos hle, hrec]
          · simp only [if_neg hle]
            exact hrec

theorem filter_masp_events_total (first_idx : Nat) :
    ∀ events : List AbciEvent, (∀ e ∈ events, bad_masp_attr e = false) →
      ∃ l, filter_masp_events first_idx events = Outcome.ok l := by
  intro events
  induction events with
  | nil => intro h; exact ⟨[], rfl⟩
  | cons e es ih =>
    intro h
    obtain ⟨o, ho⟩ := masp_event_index_ok (h e (List.mem_cons_self e es))
    obtain ⟨l, hl⟩ := ih (fun x hx => h x (List.mem_cons_of_mem e hx))
    cases o with
    | none => exact ⟨l, by simp only [filter_masp_events, ho]; exact hl⟩
    | some idx =>
      by_cases hle : first_idx ≤ idx
      · exact ⟨(idx, e) :: l, by simp only [filter_masp_events, ho, if_pos hle, hl]⟩
      · exact ⟨l, by simp only [filter_masp_events, ho, if_neg hle]; exact hl⟩

/-- Claim C10 (amended): if `block_results` succeeds with events, then
`get_indexed_masp_events_at_height` panics exactly when some event's first
`is_valid_masp_tx` attr has a value that does not parse as a `u32`; when
every such first attr parses, the call returns without error or panic. -/
theorem masp_events_panic_condition :
    ∀ (client : Client) (height : Nat) (index : Option Nat) (events : List AbciEvent),
      client height = Except.ok (some events) →
      ((∃ e ∈ events, bad_masp_attr e = true) →
        get_indexed_masp_events_at_height client height index = Outcome.panic)
      ∧ ((∀ e ∈ events, bad_masp_attr e = false) →
        ∃ l, get_indexed_masp_events_at_height client height index
            = Outcome.ok (some l)) := by
  intro client height index events hcl
  constructor
  · intro h
    simp only [get_indexed_masp_events_at_height, hcl,
      filter_masp_events_panic (index.getD 0) events h]
  · intro h
    obtain ⟨l, hl⟩ := filter_masp_events_total (index.getD 0) events h
    exact ⟨l, by simp only [get_indexed_masp_events_at_height, hcl, hl]⟩

theorem masp_events_panic_condition_witness :
    get_indexed_masp_events_at_height
        (fun _ => Except.ok (some [⟨[⟨"is_valid_masp_tx", AttrVal.str "foo"⟩]⟩])) 2 none
      = Outcome.panic :=
  (masp_events_panic_condition
      (fun _ => Except.ok (some [⟨[⟨"is_valid_masp_tx", AttrVal.str "foo"⟩]⟩])) 2 none
      [⟨[⟨"is_valid_masp_tx", AttrVal.str "foo"⟩]⟩] rfl).1
    ⟨⟨[⟨"is_valid_masp_tx", AttrVal.str "foo"⟩]⟩, by decide, by decide⟩

/-- Counterexample to claim C10 as stated: `c10_event` carries an
`is_valid_masp_tx` attr whose value does not parse as a `u32`, yet the call
returns successfully because only the event's first such attr is ever
parsed. -/
theorem masp_events_first_attr_counterexample :
    (∃ a ∈ c10_event.attributes, a.key = "is_valid_masp_tx" ∧ u32_from_str a.value = none)
    ∧ get_indexed_masp_events_at_height (fun _ => Except.ok (some [c10_event])) 5 none
        = Outcome.ok (some [(3, c10_event)]) := by
  constructor
  · exact ⟨⟨"is_valid_masp_tx", AttrVal.str "foo"⟩, by decide, by decide, by decide⟩
  · decide
